import Mathlib

/-!
Verification development for the farm-backend crops service (src/index.js).

The service keeps a single MongoDB collection of Crop documents; each Crop
embeds its list of Interest records.  We give a shallow embedding: the
collection is a `List Crop`, each route handler becomes a pure function from
the collection state (plus the request data) to the new state and the HTTP
response.  MongoDB's `findOne` / `updateOne` act on the first matching
document, which the embedding mirrors with first-match helpers.

Error responses `res.status(n).send({error: msg})` are modelled by `ApiError`,
whose constructors follow the spec's error taxonomy (ValidationError /
NotFoundError / ForbiddenError / ConflictError / InternalError) and whose
`httpStatus` reproduces the wire code the reference actually sends (in
particular the duplicate-interest conflict is sent as 400 in the reference).
-/

/-- The `owner` subdocument of a Crop: `{ ownerEmail, ownerName }`. -/
structure Owner where
  ownerEmail : String
  ownerName : String
deriving DecidableEq, Repr

/-- An embedded Interest record, as built by POST /api/crops/:id/interests.
`quantity` is kept optional (absent in the request body is `none`), matching
the JS truthiness test `!quantity`; per the data model it is an integer. -/
structure Interest where
  _id : String
  cropId : String
  userEmail : String
  userName : String
  quantity : Option Int
  message : String
  status : String
  createdAt : Nat
deriving DecidableEq, Repr

/-- A Crop document.  `owner` and `interests` are optional because the code
reads them with optional chaining (`crop.owner?.…`, `crop.interests?.…`). -/
structure Crop where
  _id : String
  name : String
  owner : Option Owner
  interests : Option (List Interest)
deriving DecidableEq, Repr

/-- Error taxonomy of the spec (§7), carrying the message the route sends. -/
inductive ApiError where
  | validation (msg : String)
  | notFound (msg : String)
  | forbidden (msg : String)
  | conflict (msg : String)
  | internal (msg : String)
deriving DecidableEq, Repr

/-- Wire status code the reference sends for each error kind.  The
duplicate-interest conflict is sent as 400 by the reference (spec §6, §9). -/
def ApiError.httpStatus : ApiError → Nat
  | .validation _ => 400
  | .notFound _ => 404
  | .forbidden _ => 403
  | .conflict _ => 400
  | .internal _ => 500

deriving instance DecidableEq for Except

def ApiError.isValidation : ApiError → Bool
  | .validation _ => true
  | _ => false

def ApiError.isNotFound : ApiError → Bool
  | .notFound _ => true
  | _ => false

/-- Hex digit test for ObjectId well-formedness. -/
def isHexChar (c : Char) : Bool :=
  c.isDigit || (Char.ofNat 97 ≤ c && c ≤ Char.ofNat 102) ||
    (Char.ofNat 65 ≤ c && c ≤ Char.ofNat 70)

/-- `ObjectId.isValid` / the `new ObjectId(s)` well-formedness condition:
a 24-character hex string (the 12-byte binary form is not modelled). -/
def isValidObjectId (s : String) : Bool :=
  s.length == 24 && s.toList.all isHexChar

/-- `cropsCollection.findOne({_id: id})`: first document with this `_id`. -/
def findCrop (db : List Crop) (cropId : String) : Option Crop :=
  db.find? (fun c => c._id == cropId)

/-- `cropsCollection.updateOne(filter, …)`: updates the first document
matching `p` (MongoDB's updateOne touches at most one document). -/
def updateFirstMatch (db : List Crop) (p : Crop → Bool) (f : Crop → Crop) :
    List Crop :=
  match db with
  | [] => []
  | c :: rest =>
      if p c then f c :: rest else c :: updateFirstMatch rest p f

/-- Request body of POST /api/crops/:id/interests. -/
structure SubmitArgs where
  userEmail : String
  userName : String
  quantity : Option Int
  message : String
deriving DecidableEq, Repr

/-- The new Interest document the route constructs on success
(`status: "pending"`, fresh `_id`, `createdAt: new Date()`). -/
def mkInterest (cropId : String) (a : SubmitArgs) (freshId : String)
    (now : Nat) : Interest :=
  { _id := freshId, cropId := cropId, userEmail := a.userEmail,
    userName := a.userName, quantity := a.quantity, message := a.message,
    status := "pending", createdAt := now }

/-- The read/validate phase of POST /api/crops/:id/interests, translated in
the route's order: user-info check, quantity check (`!quantity || quantity < 1`),
`new ObjectId(cropId)` (throws into the catch block, hence InternalError, when
malformed), `findOne`, owner check, duplicate check.  Returns the Interest to
be pushed, or the route's error. -/
def submitDecide (db : List Crop) (cropId : String) (a : SubmitArgs)
    (freshId : String) (now : Nat) : Except ApiError Interest :=
  if a.userEmail == "" || a.userName == "" then
    .error (.validation "User info required")
  else if a.quantity.getD 0 < 1 then
    .error (.validation "Quantity must be at least 1")
  else if !(isValidObjectId cropId) then
    .error (.internal "Failed to submit interest")
  else
    match findCrop db cropId with
    | none => .error (.notFound "Crop not found")
    | some crop =>
      if crop.owner.map Owner.ownerEmail == some a.userEmail then
        .error (.forbidden "Owner cannot send interest")
      else if (crop.interests.getD []).any
          (fun i => i.userEmail == a.userEmail) then
        .error (.conflict "You\u2019ve already sent an interest")
      else
        .ok (mkInterest cropId a freshId now)

/-- `$push: { interests: i }`: appends, creating the array when absent. -/
def pushInterest (c : Crop) (i : Interest) : Crop :=
  { c with interests := some (c.interests.getD [] ++ [i]) }

/-- The write phase of the route:
`updateOne({_id: cropId}, {$push: {interests: newInterest}})`.
Note the filter is on `_id` alone — it carries no condition on the
existing interests. -/
def submitWrite (db : List Crop) (cropId : String) (i : Interest) :
    List Crop :=
  updateFirstMatch db (fun c => c._id == cropId) (fun c => pushInterest c i)

/-- POST /api/crops/:id/interests, sequentially: the decide phase (one
`findOne` read) followed, on success only, by the `$push` write. -/
def submitInterest (db : List Crop) (cropId : String) (a : SubmitArgs)
    (freshId : String) (now : Nat) :
    List Crop × Except ApiError Interest :=
  match submitDecide db cropId a freshId now with
  | .ok i => (submitWrite db cropId i, .ok i)
  | .error e => (db, .error e)

/-- One submission request: body plus its environment (the fresh ObjectId
generated for the interest and the `new Date()` timestamp). -/
structure SubmitCall where
  args : SubmitArgs
  freshId : String
  now : Nat
deriving DecidableEq, Repr

/-- A sequence of POST /api/crops/:id/interests requests against the same
crop id, executed one after the other; returns the final collection state and
the list of responses in order. -/
def runSubmits (db : List Crop) (cropId : String) :
    List SubmitCall → List Crop × List (Except ApiError Interest)
  | [] => (db, [])
  | c :: rest =>
      let step := submitInterest db cropId c.args c.freshId c.now
      let restRun := runSubmits step.1 cropId rest
      (restRun.1, step.2 :: restRun.2)

def isOkResult : Except ApiError Interest → Bool
  | .ok _ => true
  | .error _ => false

/-- Number of successful responses in a list of submission responses. -/
def countOk (rs : List (Except ApiError Interest)) : Nat :=
  (rs.filter isOkResult).length

/-- The duplicate-interest error of the route (the spec's ConflictError;
the reference sends it with status 400). -/
def duplicateConflict : ApiError :=
  ApiError.conflict "You\u2019ve already sent an interest"

/-- Holds when, in a list of responses, every response that comes after a
successful one is the duplicate-interest ConflictError. -/
def afterOkAllConflict : List (Except ApiError Interest) → Bool
  | [] => true
  | r :: rs =>
      (!(isOkResult r) || rs.all (fun r2 => r2 == Except.error duplicateConflict))
        && afterOkAllConflict rs

/-- Interests list of the (first) crop with the given id, `[]` when the crop
is absent or its `interests` field is absent. -/
def interestsOf (db : List Crop) (cropId : String) : List Interest :=
  match findCrop db cropId with
  | some c => c.interests.getD []
  | none => []

/-- Two concurrent POST /api/crops/:id/interests requests, interleaved as
read₁, read₂, write₁, write₂: the route issues `findOne` and `updateOne` as
two separate store operations, so both decide phases can run against the same
snapshot before either `$push` lands. -/
def raceFinalDb (db : List Crop) (cropId : String) (c1 c2 : SubmitCall) :
    List Crop :=
  let r1 := submitDecide db cropId c1.args c1.freshId c1.now
  let r2 := submitDecide db cropId c2.args c2.freshId c2.now
  let db1 := match r1 with
    | .ok i => submitWrite db cropId i
    | .error _ => db
  match r2 with
  | .ok i => submitWrite db1 cropId i
  | .error _ => db1

/-- Number of stored interests with this `userEmail` on the given crop. -/
def countEmailInterests (db : List Crop) (cropId userEmail : String) : Nat :=
  ((interestsOf db cropId).filter (fun i => i.userEmail == userEmail)).length

/-- Response body `{success: true}` of the update routes. -/
structure UpdateResult where
  success : Bool
deriving DecidableEq, Repr

/-- `$set: {"interests.$.status": status}` on the array element matched by the
positional operator: the first interest whose `_id` matched the filter. -/
def setInterestStatus (is : List Interest) (interestId status : String) :
    List Interest :=
  match is with
  | [] => []
  | i :: rest =>
      if i._id == interestId then { i with status := status } :: rest
      else i :: setInterestStatus rest interestId status

/-- Filter of the PATCH route's `updateOne`:
`{_id: cropId, "interests._id": interestId}`. -/
def cropInterestMatch (cropId interestId : String) (c : Crop) : Bool :=
  c._id == cropId &&
    (c.interests.getD []).any (fun i => i._id == interestId)

/-- The document modification of the PATCH route's `updateOne` on the matched
crop. -/
def setStatusInCrop (interestId status : String) (c : Crop) : Crop :=
  { c with
    interests := some (setInterestStatus (c.interests.getD []) interestId status) }

/-- PATCH /api/crops/:cropId/interests/:interestId: validates both ids, then
runs a single unconditional
`updateOne({_id, "interests._id"}, {$set: {"interests.$.status": status}})`
and answers `{success: true}` regardless of whether anything matched.  The
body's `status` is written as supplied — the route has no status-value check
and no condition on the current status. -/
def updateInterestStatus (db : List Crop) (cropId interestId status : String) :
    List Crop × Except ApiError UpdateResult :=
  if !(isValidObjectId cropId) || !(isValidObjectId interestId) then
    (db, .error (.validation "Invalid ID(s)"))
  else
    (updateFirstMatch db (cropInterestMatch cropId interestId)
        (setStatusInCrop interestId status),
      .ok { success := true })

/-- Status of the interest `interestId` inside the crop `cropId`. -/
def statusOf (db : List Crop) (cropId interestId : String) : Option String :=
  (findCrop db cropId).bind fun c =>
    ((c.interests.getD []).find? (fun i => i._id == interestId)).map
      Interest.status

/-- Projected record pushed by GET /api/my-interests for each matching
interest. -/
structure MyInterestView where
  _id : String
  cropName : String
  ownerName : Option String
  quantity : Option Int
  message : String
  status : String
deriving DecidableEq, Repr

/-- The projection
`{_id, cropName: crop.name, ownerName: crop.owner?.ownerName, quantity,
message, status}`. -/
def projectInterest (c : Crop) (i : Interest) : MyInterestView :=
  { _id := i._id, cropName := c.name, ownerName := c.owner.map Owner.ownerName,
    quantity := i.quantity, message := i.message, status := i.status }

/-- MongoDB filter `{"interests.userEmail": email}`: the document matches when
its `interests` array holds an element with this `userEmail` (a crop with an
absent or empty `interests` field does not match). -/
def cropHasEmail (c : Crop) (email : String) : Bool :=
  (c.interests.getD []).any (fun i => i.userEmail == email)

/-- The loop body `crop.interests.forEach(…)` of GET /api/my-interests: it
dereferences `crop.interests` without optional chaining, so an absent field
would throw into the catch block (500). -/
def collectCrop (c : Crop) (email : String) :
    Except ApiError (List MyInterestView) :=
  match c.interests with
  | none => .error (.internal "Failed to fetch interests")
  | some is =>
      .ok ((is.filter (fun i => i.userEmail == email)).map (projectInterest c))

/-- Folds `collectCrop` over the crops returned by the store query,
concatenating the projected records in order. -/
def collectAll (email : String) :
    List Crop → Except ApiError (List MyInterestView)
  | [] => .ok []
  | c :: rest =>
      match collectCrop c email, collectAll email rest with
      | .ok l, .ok ls => .ok (l ++ ls)
      | .error e, _ => .error e
      | .ok _, .error e => .error e

/-- GET /api/my-interests: requires `email`, queries
`find({"interests.userEmail": email})`, then projects every matching interest
of every returned crop. -/
def listMyInterests (db : List Crop) (email : String) :
    Except ApiError (List MyInterestView) :=
  if email == "" then .error (.validation "Email is required")
  else collectAll email (db.filter (fun c => cropHasEmail c email))

/-!
Open-document view for the generic crop-update routes.

PUT /api/crops/:id and PATCH /api/crops/:id apply `$set: req.body` with the
caller's body taken whole, so they are modelled over an open document — an
association list of fields — rather than the fixed `Crop` record.
-/

/-- A field value of a crop document (enough structure for the claims:
strings, integers, and the `owner` subdocument). -/
inductive BVal where
  | str (v : String)
  | int (v : Int)
  | ownerObj (ownerEmail ownerName : String)
deriving DecidableEq, Repr

/-- An open crop document: ordered field list. -/
abbrev CropDoc := List (String × BVal)

def getField (d : CropDoc) (k : String) : Option BVal :=
  (d.find? (fun p => p.1 == k)).map Prod.snd

/-- One `$set` field write: overwrites the field when present (every stored
occurrence of the key), appends it otherwise. -/
def setField (d : CropDoc) (k : String) (v : BVal) : CropDoc :=
  if d.any (fun p => p.1 == k) then
    d.map (fun p => if p.1 == k then (k, v) else p)
  else d ++ [(k, v)]

/-- `$set: body` — merge every field of the body into the document; fields not
named by the body are left as they are. -/
def applySet (d : CropDoc) (body : CropDoc) : CropDoc :=
  body.foldl (fun acc p => setField acc p.1 p.2) d

/-- A stored crop document with its id. -/
structure DocRec where
  _id : String
  doc : CropDoc
deriving DecidableEq, Repr

abbrev DocDb := List DocRec

def findDoc (db : DocDb) (id : String) : Option CropDoc :=
  (db.find? (fun r => r._id == id)).map DocRec.doc

def updateFirstDoc (db : DocDb) (id : String) (f : CropDoc → CropDoc) :
    DocDb :=
  match db with
  | [] => []
  | r :: rest =>
      if r._id == id then { r with doc := f r.doc } :: rest
      else r :: updateFirstDoc rest id f

/-- PUT /api/crops/:id: `updateOne({_id: id}, {$set: req.body})`, then
`{success: true}`.  (A malformed id makes `new ObjectId` throw with no local
catch — the transport turns that into a 500.) -/
def putCrop (db : DocDb) (id : String) (body : CropDoc) :
    DocDb × Except ApiError UpdateResult :=
  if !(isValidObjectId id) then (db, .error (.internal "BSONError"))
  else (updateFirstDoc db id (fun d => applySet d body), .ok { success := true })

/-- PATCH /api/crops/:id ("for edit tab"): the same
`updateOne({_id: id}, {$set: updatedData})`, answering the raw update result
(modelled as `{success: true}`); its catch block answers 500. -/
def patchCrop (db : DocDb) (id : String) (body : CropDoc) :
    DocDb × Except ApiError UpdateResult :=
  if !(isValidObjectId id) then
    (db, .error (.internal "Failed to update crop"))
  else (updateFirstDoc db id (fun d => applySet d body), .ok { success := true })

/-!  Shared concrete data for witnesses and counterexamples.  -/

def demoCid : String := "aaaaaaaaaaaaaaaaaaaaaaa1"

def demoIid : String := "bbbbbbbbbbbbbbbbbbbbbbb1"

def demoOwner : Owner := { ownerEmail := "a@x.com", ownerName := "A" }

def demoCrop : Crop :=
  { _id := demoCid, name := "Wheat", owner := some demoOwner,
    interests := none }

def demoDb : List Crop := [demoCrop]

def demoArgs : SubmitArgs :=
  { userEmail := "b@x.com", userName := "B", quantity := some 2,
    message := "hi" }

def demoOwnerArgs : SubmitArgs :=
  { userEmail := "a@x.com", userName := "A", quantity := some 5,
    message := "m" }

def resultIsValidation : Except ApiError Interest → Bool
  | .error (.validation _) => true
  | _ => false

def demoInterestAccepted : Interest :=
  { _id := demoIid, cropId := demoCid, userEmail := "b@x.com", userName := "B",
    quantity := some 2, message := "hi", status := "accepted", createdAt := 0 }

def demoDbAccepted : List Crop :=
  [{ _id := demoCid, name := "Wheat", owner := some demoOwner,
     interests := some [demoInterestAccepted] }]

def updateResultIsNotFound : Except ApiError UpdateResult → Bool
  | .error (.notFound _) => true
  | _ => false

def demoInterestPending : Interest :=
  { _id := demoIid, cropId := demoCid, userEmail := "b@x.com", userName := "B",
    quantity := some 2, message := "hi", status := "pending", createdAt := 0 }

def demoDbPending : List Crop :=
  [{ _id := demoCid, name := "Wheat", owner := some demoOwner,
     interests := some [demoInterestPending] }]

def updateResultIsValidation : Except ApiError UpdateResult → Bool
  | .error (.validation _) => true
  | _ => false

def raceCall1 : SubmitCall := { args := demoArgs, freshId := "f1", now := 1 }

def raceCall2 : SubmitCall := { args := demoArgs, freshId := "f2", now := 2 }

def demoNoInterestsCrop : Crop :=
  { _id := "cccccccccccccccccccccccc", name := "Rice", owner := some demoOwner,
    interests := none }

def demoEmptyInterestsCrop : Crop :=
  { _id := "dddddddddddddddddddddddd", name := "Corn", owner := some demoOwner,
    interests := some [] }

def demoDoc : CropDoc :=
  [("name", BVal.str "Wheat"), ("owner", BVal.ownerObj "a@x.com" "A"),
   ("quantity", BVal.int 10)]

def demoDocDb : DocDb := [{ _id := demoCid, doc := demoDoc }]

/-- State in which a duplicate-interest conflict is guaranteed: the crop id
is well-formed and resolves to a crop that already holds an interest with the
given email and is not owned by it. -/
def dupReady (db : List Crop) (cropId emailv : String) : Prop :=
  isValidObjectId cropId = true ∧
  ∃ c, findCrop db cropId = some c ∧
    (c.owner.map Owner.ownerEmail == some emailv) = false ∧
    (c.interests.getD []).any (fun i => i.userEmail == emailv) = true

def demoCalls : List SubmitCall :=
  [{ args := demoArgs, freshId := "f1", now := 1 },
   { args := { demoArgs with userName := "B2", quantity := some 3 },
     freshId := "f2", now := 2 },
   { args := demoArgs, freshId := "f3", now := 3 }]

/-!  Helper lemmas.  -/

/-- `updateOne` on the filter `{_id: cropId}` with an id-preserving
modification commutes with `findOne({_id: cropId})`. -/
theorem findCrop_updateFirstMatch_id (db : List Crop) (cropId : String)
    (f : Crop → Crop) (hf : ∀ c, (f c)._id = c._id) :
    findCrop (updateFirstMatch db (fun c => c._id == cropId) f) cropId =
      (findCrop db cropId).map f := by
  induction db with
  | nil => rfl
  | cons c rest ih =>
      cases hc : c._id == cropId with
      | true =>
          have hfc : ((f c)._id == cropId) = true := by rw [hf c]; exact hc
          simp [findCrop, updateFirstMatch, List.find?, hc, hfc]
      | false =>
          simpa [findCrop, updateFirstMatch, List.find?, hc] using ih

/-- After the `$push` write of the submit route, the crop's interests are the
old interests with the new one appended. -/
theorem interestsOf_submitWrite (db : List Crop) (cropId : String)
    (i : Interest) (c : Crop) (hfind : findCrop db cropId = some c) :
    interestsOf (submitWrite db cropId i) cropId =
      interestsOf db cropId ++ [i] := by
  have h := findCrop_updateFirstMatch_id db cropId
    (fun c => pushInterest c i) (fun _ => rfl)
  simp only [submitWrite, interestsOf, h, hfind, Option.map_some]
  simp [pushInterest]

/-!  Theorems.  -/

/-- Claim C6: for every existing Crop, a submission whose `userEmail` equals
the Crop's `owner.ownerEmail` is answered with ForbiddenError
("Owner cannot send interest", 403) and stores nothing, whenever the request
passes the route's preceding input validation (non-empty user info, quantity
at least 1; the crop id of an existing crop is a well-formed ObjectId). -/
theorem submitInterest_owner_forbidden
    (db : List Crop) (cropId : String) (a : SubmitArgs) (fid : String)
    (now : Nat) (c : Crop) (o : Owner)
    (hid : isValidObjectId cropId = true)
    (hfind : findCrop db cropId = some c)
    (howner : c.owner = some o)
    (hemail : a.userEmail = o.ownerEmail)
    (hne : a.userEmail ≠ "")
    (hun : a.userName ≠ "")
    (hq : 1 ≤ a.quantity.getD 0) :
    submitInterest db cropId a fid now =
      (db, Except.error (ApiError.forbidden "Owner cannot send interest")) := by
  have hq2 : ¬ (a.quantity.getD 0 < 1) := by omega
  have hne2 : o.ownerEmail ≠ "" := hemail ▸ hne
  simp [submitInterest, submitDecide, hfind, howner, hemail, hne, hne2, hun,
    hid, hq2]

/-- Witness for C6: the owner of the demo crop submitting to their own
listing is rejected with the 403 ForbiddenError and the store is unchanged. -/
theorem submitInterest_owner_forbidden_witness :
    submitInterest demoDb demoCid demoOwnerArgs "f1" 0 =
      (demoDb, Except.error (ApiError.forbidden "Owner cannot send interest")) :=
  submitInterest_owner_forbidden demoDb demoCid demoOwnerArgs "f1" 0
    demoCrop demoOwner (by decide) (by decide) (by decide) (by decide)
    (by decide) (by decide) (by decide)

/-- Claim C7: submission requires a positive quantity.  A request whose
`quantity` is absent, zero or negative (`quantity.getD 0 < 1` covers all
three) is answered with a ValidationError and the store is untouched —
before any persistence; a request with `quantity = 1` and otherwise valid
inputs succeeds, the stored Interest has `status = "pending"` and is appended
to the crop's interests. -/
theorem submitInterest_quantity_boundary
    (db : List Crop) (cropId : String) (a a1 : SubmitArgs) (fid : String)
    (now : Nat) (c : Crop)
    (hlow : a.quantity.getD 0 < 1)
    (h1 : a1.quantity = some 1)
    (he : (a1.userEmail == "") = false)
    (hn : (a1.userName == "") = false)
    (hid : isValidObjectId cropId = true)
    (hfind : findCrop db cropId = some c)
    (hown : (c.owner.map Owner.ownerEmail == some a1.userEmail) = false)
    (hdup : ((c.interests.getD []).any
        (fun i => i.userEmail == a1.userEmail)) = false) :
    (∃ m, submitInterest db cropId a fid now =
        (db, Except.error (ApiError.validation m))) ∧
    submitInterest db cropId a1 fid now =
      (submitWrite db cropId (mkInterest cropId a1 fid now),
        Except.ok (mkInterest cropId a1 fid now)) ∧
    (mkInterest cropId a1 fid now).status = "pending" ∧
    interestsOf (submitWrite db cropId (mkInterest cropId a1 fid now)) cropId =
      interestsOf db cropId ++ [mkInterest cropId a1 fid now] := by
  refine ⟨?_, ?_, rfl, interestsOf_submitWrite db cropId _ c hfind⟩
  · by_cases hu : (a.userEmail == "" || a.userName == "") = true
    · exact ⟨"User info required", by simp [submitInterest, submitDecide, hu]⟩
    · exact ⟨"Quantity must be at least 1",
        by simp [submitInterest, submitDecide, hu, hlow]⟩
  · simp [submitInterest, submitDecide, he, hn, h1, hid, hfind, hown, hdup]

/-- Witness for C7: on the demo crop, quantity 0 is rejected with a
ValidationError and quantity 1 succeeds with a pending stored Interest. -/
theorem submitInterest_quantity_boundary_witness :
    (∃ m, submitInterest demoDb demoCid
        { demoArgs with quantity := some 0 } "f1" 0 =
        (demoDb, Except.error (ApiError.validation m))) ∧
    submitInterest demoDb demoCid { demoArgs with quantity := some 1 } "f1" 0 =
      (submitWrite demoDb demoCid
          (mkInterest demoCid { demoArgs with quantity := some 1 } "f1" 0),
        Except.ok (mkInterest demoCid { demoArgs with quantity := some 1 } "f1" 0)) ∧
    (mkInterest demoCid { demoArgs with quantity := some 1 } "f1" 0).status =
      "pending" ∧
    interestsOf (submitWrite demoDb demoCid
        (mkInterest demoCid { demoArgs with quantity := some 1 } "f1" 0)) demoCid =
      interestsOf demoDb demoCid ++
        [mkInterest demoCid { demoArgs with quantity := some 1 } "f1" 0] :=
  submitInterest_quantity_boundary demoDb demoCid
    { demoArgs with quantity := some 0 } { demoArgs with quantity := some 1 }
    "f1" 0 demoCrop (by decide) (by decide) (by decide) (by decide) (by decide)
    (by decide) (by decide) (by decide)

/-- Counterexample for C8: with a well-formed body but the malformed crop id
"xyz", the submit route reaches `new ObjectId(cropId)`, which throws into the
catch block: the response is the 500 InternalError "Failed to submit
interest", not a ValidationError (and not a NotFoundError). -/
theorem submitInterest_malformed_id_counterexample :
    submitInterest demoDb "xyz" demoArgs "f1" 0 =
      (demoDb, Except.error (ApiError.internal "Failed to submit interest")) ∧
    resultIsValidation (submitInterest demoDb "xyz" demoArgs "f1" 0).2 =
      false := by
  decide

/-- Claim C8 (amended): a submission whose body passes the user-info and
quantity checks but whose crop id is not a well-formed ObjectId is answered
with the 500 InternalError "Failed to submit interest" — the reference has no
id well-formedness check on this route, so the ObjectId constructor throws
into the catch block; no ValidationError is produced and nothing is stored. -/
theorem submitInterest_malformed_id_internal
    (db : List Crop) (cropId : String) (a : SubmitArgs) (fid : String)
    (now : Nat)
    (he : (a.userEmail == "") = false)
    (hn : (a.userName == "") = false)
    (hq : ¬ (a.quantity.getD 0 < 1))
    (hbad : isValidObjectId cropId = false) :
    submitInterest db cropId a fid now =
      (db, Except.error (ApiError.internal "Failed to submit interest")) := by
  simp [submitInterest, submitDecide, he, hn, hq, hbad]

/-- Witness for the amended C8 on a concrete malformed id. -/
theorem submitInterest_malformed_id_internal_witness :
    submitInterest demoDb "zzz" demoArgs "f1" 0 =
      (demoDb, Except.error (ApiError.internal "Failed to submit interest")) :=
  submitInterest_malformed_id_internal demoDb "zzz" demoArgs "f1" 0
    (by decide) (by decide) (by decide) (by decide)

/-- Claim C3 is violated by the code (code bug): the PATCH route's updateOne
carries no condition on the current status, so on a crop whose interest is
already terminal ("accepted"), requesting "rejected" overwrites the stored
terminal status and the route still reports success — where the spec requires
ConflictError and an unchanged status. -/
theorem updateInterestStatus_overwrites_terminal :
    statusOf demoDbAccepted demoCid demoIid = some "accepted" ∧
    statusOf (updateInterestStatus demoDbAccepted demoCid demoIid "rejected").1
        demoCid demoIid = some "rejected" ∧
    (updateInterestStatus demoDbAccepted demoCid demoIid "rejected").2 =
      Except.ok { success := true } := by
  decide

/-- Counterexample for C4: on an empty collection (the referenced Crop does
not exist) with well-formed ids, the PATCH route answers `{success: true}` —
it reports success and surfaces no NotFoundError. -/
theorem updateInterestStatus_missing_counterexample :
    updateInterestStatus [] demoCid demoIid "accepted" =
      ([], Except.ok { success := true }) ∧
    updateResultIsNotFound
        (updateInterestStatus [] demoCid demoIid "accepted").2 = false := by
  decide

/-- `updateOne` is the identity when no document satisfies its filter. -/
theorem updateFirstMatch_no_match (db : List Crop) (p : Crop → Bool)
    (f : Crop → Crop) (h : db.all (fun c => !(p c)) = true) :
    updateFirstMatch db p f = db := by
  induction db with
  | nil => rfl
  | cons c rest ih =>
      simp only [List.all_cons, Bool.and_eq_true, Bool.not_eq_true'] at h
      simp [updateFirstMatch, h.1, ih h.2]

/-- Claim C4 (amended): when no stored Crop matches the
`{_id, "interests._id"}` filter — the referenced Crop, or the Interest inside
it, does not exist — the PATCH route performs no write and still answers
`{success: true}`; NotFoundError is never surfaced by this route. -/
theorem updateInterestStatus_missing_noop_success
    (db : List Crop) (cid iid st : String)
    (hc : isValidObjectId cid = true) (hi : isValidObjectId iid = true)
    (hnomatch : db.all (fun c => !(cropInterestMatch cid iid c)) = true) :
    updateInterestStatus db cid iid st = (db, Except.ok { success := true }) := by
  simp [updateInterestStatus, hc, hi,
    updateFirstMatch_no_match db _ _ hnomatch]

/-- Witness for the amended C4: the demo crop exists but holds no interest
with the requested id; the route writes nothing and reports success. -/
theorem updateInterestStatus_missing_noop_success_witness :
    updateInterestStatus demoDb demoCid demoIid "accepted" =
      (demoDb, Except.ok { success := true }) :=
  updateInterestStatus_missing_noop_success demoDb demoCid demoIid "accepted"
    (by decide) (by decide) (by decide)

/-- Counterexample for C5: requesting the status "banana" — outside
{accepted, rejected} — is not rejected: the route writes "banana" into the
stored Interest and reports success, with no ValidationError. -/
theorem updateInterestStatus_arbitrary_status_counterexample :
    statusOf (updateInterestStatus demoDbPending demoCid demoIid "banana").1
        demoCid demoIid = some "banana" ∧
    (updateInterestStatus demoDbPending demoCid demoIid "banana").2 =
      Except.ok { success := true } ∧
    updateResultIsValidation
        (updateInterestStatus demoDbPending demoCid demoIid "banana").2 =
      false := by
  decide

/-- The positional `$set` on the interests array rewrites the status of the
first (and only the first) interest whose `_id` matches. -/
theorem find?_setInterestStatus (is : List Interest) (iid st : String) :
    (setInterestStatus is iid st).find? (fun i => i._id == iid) =
      (is.find? (fun i => i._id == iid)).map
        (fun i => { i with status := st }) := by
  induction is with
  | nil => rfl
  | cons i rest ih =>
      cases hi : i._id == iid with
      | true =>
          simp [setInterestStatus, List.find?, hi]
      | false =>
          simp [setInterestStatus, List.find?, hi, ih]

/-- `updateOne` on the `{_id: cid, "interests._id": iid}` filter, when the
first crop carrying `cid` also carries the interest `iid`, applies the
(id-preserving) modification to exactly that crop. -/
theorem findCrop_updateFirstMatch_interest (db : List Crop) (cid iid : String)
    (f : Crop → Crop) (hf : ∀ c, (f c)._id = c._id) (c : Crop)
    (hfind : findCrop db cid = some c)
    (hhas : (c.interests.getD []).any (fun i => i._id == iid) = true) :
    findCrop (updateFirstMatch db (cropInterestMatch cid iid) f) cid =
      some (f c) := by
  induction db with
  | nil => simp [findCrop] at hfind
  | cons a rest ih =>
      cases ha : a._id == cid with
      | true =>
          have hac : a = c := by
            have := hfind
            simp [findCrop, List.find?, ha] at this
            exact this
          subst hac
          have hm : cropInterestMatch cid iid a = true := by
            simp [cropInterestMatch, ha, hhas]
          have hfa : ((f a)._id == cid) = true := by rw [hf a]; exact ha
          simp [updateFirstMatch, hm, findCrop, List.find?, hfa]
      | false =>
          have hm : cropInterestMatch cid iid a = false := by
            simp [cropInterestMatch, ha]
          have hfind2 : findCrop rest cid = some c := by
            have := hfind
            simpa [findCrop, List.find?, ha] using this
          simpa [updateFirstMatch, hm, findCrop, List.find?, ha]
            using ih hfind2

/-- Claim C5 (amended): the route performs no validation of the requested
status.  Whatever string the body supplies — in particular values outside
{accepted, rejected} — is written into the matched Interest's stored status,
and the route reports success. -/
theorem updateInterestStatus_writes_any_value
    (db : List Crop) (cid iid st : String) (c : Crop)
    (hc : isValidObjectId cid = true) (hi : isValidObjectId iid = true)
    (hfind : findCrop db cid = some c)
    (hhas : (c.interests.getD []).any (fun i => i._id == iid) = true) :
    statusOf (updateInterestStatus db cid iid st).1 cid iid = some st ∧
    (updateInterestStatus db cid iid st).2 = Except.ok { success := true } := by
  constructor
  · have hup := findCrop_updateFirstMatch_interest db cid iid
      (setStatusInCrop iid st) (fun _ => rfl) c hfind hhas
    have hsome : ((c.interests.getD []).find? (fun i => i._id == iid)).isSome := by
      rw [List.find?_isSome]
      simpa using List.any_eq_true.mp hhas
    rcases Option.isSome_iff_exists.mp hsome with ⟨i0, hi0⟩
    simp [updateInterestStatus, hc, hi, statusOf, hup, setStatusInCrop,
      find?_setInterestStatus, hi0]
  · simp [updateInterestStatus, hc, hi]

/-- Witness for the amended C5: "banana" is written and reported successful
on the demo pending interest. -/
theorem updateInterestStatus_writes_any_value_witness :
    statusOf (updateInterestStatus demoDbPending demoCid demoIid "banana").1
        demoCid demoIid = some "banana" ∧
    (updateInterestStatus demoDbPending demoCid demoIid "banana").2 =
      Except.ok { success := true } :=
  updateInterestStatus_writes_any_value demoDbPending demoCid demoIid "banana"
    (demoDbPending.head (by decide)) (by decide) (by decide) (by decide)
    (by decide)

/-- Claim C1 is violated by the code (code bug): the route implements the
uniqueness check as a `findOne` read followed by a separate `$push`
`updateOne` whose filter is `{_id}` alone — not as one atomic conditional
operation.  Under the read-read-write-write interleaving of two identical
submissions, both decide phases succeed against the same snapshot, both
pushes land, and the crop ends with two stored Interests for the same
`userEmail` (and neither request is answered with ConflictError). -/
theorem submitInterest_race_stores_duplicate :
    isOkResult (submitDecide demoDb demoCid raceCall1.args raceCall1.freshId
        raceCall1.now) = true ∧
    isOkResult (submitDecide demoDb demoCid raceCall2.args raceCall2.freshId
        raceCall2.now) = true ∧
    countEmailInterests (raceFinalDb demoDb demoCid raceCall1 raceCall2)
        demoCid "b@x.com" = 2 := by
  decide

/-- The store query of GET /api/my-interests keeps exactly the crops holding
a matching interest, and projecting those equals projecting all crops (the
dropped ones contribute no records). -/
theorem collectAll_filter (email : String) (db : List Crop) :
    collectAll email (db.filter (fun c => cropHasEmail c email)) =
      Except.ok (db.flatMap (fun c =>
        ((c.interests.getD []).filter (fun i => i.userEmail == email)).map
          (projectInterest c))) := by
  induction db with
  | nil => rfl
  | cons c rest ih =>
      cases hm : cropHasEmail c email with
      | false =>
          have hm2 : ∀ x ∈ c.interests.getD [], ¬ x.userEmail = email := by
            simpa [cropHasEmail, List.any_eq_false] using hm
          have hnil : (c.interests.getD []).filter
              (fun i => i.userEmail == email) = [] := by
            rw [List.filter_eq_nil_iff]
            intro a ha
            simpa using hm2 a ha
          simp [List.filter_cons, hm, ih, hnil]
      | true =>
          cases hci : c.interests with
          | none =>
              simp [cropHasEmail, hci] at hm
          | some is =>
              simp [List.filter_cons, hm, collectAll, collectCrop, hci, ih]

/-- Claim C9: with a non-empty email, GET /api/my-interests succeeds and
returns exactly one projected record
`{_id, cropName, ownerName, quantity, message, status}` per Interest matching
the email, across all crops; crops whose `interests` sequence is absent or
empty contribute no records and cause no failure (they are excluded by the
store query before the unguarded `crop.interests.forEach`). -/
theorem listMyInterests_projection
    (db : List Crop) (email : String) (he : (email == "") = false) :
    listMyInterests db email =
      Except.ok (db.flatMap (fun c =>
        ((c.interests.getD []).filter (fun i => i.userEmail == email)).map
          (projectInterest c))) := by
  simp only [listMyInterests, he, Bool.false_eq_true, if_false]
  exact collectAll_filter email db

/-- Witness for C9 on a store holding a crop with a matching interest, one
with an absent `interests` field and one with an empty one. -/
theorem listMyInterests_projection_witness :
    listMyInterests
        (demoDbPending ++ [demoNoInterestsCrop, demoEmptyInterestsCrop])
        "b@x.com" =
      Except.ok
        ((demoDbPending ++ [demoNoInterestsCrop, demoEmptyInterestsCrop]).flatMap
          (fun c =>
            ((c.interests.getD []).filter
                (fun i => i.userEmail == "b@x.com")).map (projectInterest c))) :=
  listMyInterests_projection
    (demoDbPending ++ [demoNoInterestsCrop, demoEmptyInterestsCrop])
    "b@x.com" (by decide)

/-- Rewriting the entries keyed `k` does not affect lookups of another key. -/
theorem find?_map_setkey (d : CropDoc) (k k2 : String) (v : BVal)
    (h : (k2 == k) = false) :
    (d.map (fun p => if p.1 == k then (k, v) else p)).find?
        (fun p => p.1 == k2) =
      d.find? (fun p => p.1 == k2) := by
  induction d with
  | nil => rfl
  | cons p rest ih =>
      have hkk2 : (k == k2) = false := beq_eq_false_iff_ne.mpr fun he =>
        (beq_eq_false_iff_ne.mp h) he.symm
      cases hp : p.1 == k with
      | true =>
          have hp2 : (p.1 == k2) = false := by
            rw [beq_iff_eq.mp hp]; exact hkk2
          have hhead : (if p.1 == k then (k, v) else p) = (k, v) := by
            simp [hp]
          rw [List.map_cons, hhead,
            List.find?_cons_of_neg _ (by simp [hkk2]),
            List.find?_cons_of_neg _ (by simp [hp2])]
          exact ih
      | false =>
          have hhead : (if p.1 == k then (k, v) else p) = p := by
            simp [hp]
          rw [List.map_cons, hhead]
          cases hp2 : p.1 == k2 with
          | true => simp [hp2]
          | false =>
              rw [List.find?_cons_of_neg _ (by simp [hp2]),
                List.find?_cons_of_neg _ (by simp [hp2])]
              exact ih

/-- Appending an entry keyed `k` does not affect lookups of another key. -/
theorem find?_append_key (d : CropDoc) (k k2 : String) (v : BVal)
    (h : (k2 == k) = false) :
    ((d ++ [(k, v)]).find? (fun p => p.1 == k2)) =
      d.find? (fun p => p.1 == k2) := by
  induction d with
  | nil =>
      have hkk2 : (k == k2) = false := beq_eq_false_iff_ne.mpr fun he =>
        (beq_eq_false_iff_ne.mp h) he.symm
      simp [List.find?, hkk2]
  | cons p rest ih =>
      cases hp : p.1 == k2 with
      | true => simp [List.find?, hp]
      | false => simp [List.find?, hp, ih]

/-- `$set` of one field leaves every other field unchanged. -/
theorem getField_setField_ne (d : CropDoc) (k k2 : String) (v : BVal)
    (h : (k2 == k) = false) :
    getField (setField d k v) k2 = getField d k2 := by
  unfold setField getField
  by_cases ha : d.any (fun p => p.1 == k) = true
  · rw [if_pos ha, find?_map_setkey d k k2 v h]
  · rw [if_neg ha, find?_append_key d k k2 v h]

/-- `$set` of one field makes that field hold the supplied value. -/
theorem getField_setField_self (d : CropDoc) (k : String) (v : BVal) :
    getField (setField d k v) k = some v := by
  unfold setField getField
  cases ha : d.any (fun p => p.1 == k) with
  | true =>
      induction d with
      | nil => simp at ha
      | cons p rest ih =>
          cases hp : p.1 == k with
          | true => simp [List.find?, hp]
          | false =>
              have harest : rest.any (fun p => p.1 == k) = true := by
                simpa [List.any_cons, hp] using ha
              simpa [List.find?, hp] using ih harest
  | false =>
      have hnone : d.find? (fun p => p.1 == k) = none := by
        rw [List.find?_eq_none]
        intro p hp
        have := List.any_eq_false.mp ha p hp
        simpa using this
      have happ := @List.find?_append _ (fun p => p.1 == k) d [(k, v)]
      simp [happ, hnone, List.find?]

/-- `$set` with a body that does not name `k` leaves `k` unchanged. -/
theorem getField_applySet_ne (body d : CropDoc) (k : String)
    (h : body.all (fun p => !(p.1 == k)) = true) :
    getField (applySet d body) k = getField d k := by
  induction body generalizing d with
  | nil => rfl
  | cons p rest ih =>
      simp only [List.all_cons, Bool.and_eq_true, Bool.not_eq_true'] at h
      have hk : (k == p.1) = false := beq_eq_false_iff_ne.mpr fun he =>
        (beq_eq_false_iff_ne.mp h.1) he.symm
      calc getField (applySet (setField d p.1 p.2) rest) k
        _ = getField (setField d p.1 p.2) k := ih _ h.2
        _ = getField d k := getField_setField_ne d p.1 k p.2 hk

/-- `findOne` after `updateOne({_id: id}, …)` on the open-document store. -/
theorem findDoc_updateFirstDoc (db : DocDb) (id : String)
    (f : CropDoc → CropDoc) :
    findDoc (updateFirstDoc db id f) id = (findDoc db id).map f := by
  induction db with
  | nil => rfl
  | cons r rest ih =>
      cases hr : r._id == id with
      | true => simp [findDoc, updateFirstDoc, List.find?, hr]
      | false => simpa [findDoc, updateFirstDoc, List.find?, hr] using ih

/-- Claim C10: PUT /api/crops/:id and PATCH /api/crops/:id perform the
identical store write — a merging `$set` of the whole caller-supplied body on
the document with the given id.  Fields the body does not name keep their
stored value (so PUT does not replace the document), and any field the body
does name — `owner` included — is overwritten with the caller's value,
through either route. -/
theorem crop_update_merge
    (db : DocDb) (id : String) (body d : CropDoc) (k : String) (e n : String)
    (hid : isValidObjectId id = true)
    (hfind : findDoc db id = some d)
    (hk : body.all (fun p => !(p.1 == k)) = true) :
    (putCrop db id body).1 = (patchCrop db id body).1 ∧
    findDoc (putCrop db id body).1 id = some (applySet d body) ∧
    getField (applySet d body) k = getField d k ∧
    getField (applySet d [("owner", BVal.ownerObj e n)]) "owner" =
      some (BVal.ownerObj e n) := by
  refine ⟨by simp [putCrop, patchCrop, hid], ?_, getField_applySet_ne body d k hk, ?_⟩
  · simp [putCrop, hid, findDoc_updateFirstDoc, hfind]
  · show getField (setField d "owner" (BVal.ownerObj e n)) "owner" = _
    exact getField_setField_self d "owner" (BVal.ownerObj e n)

/-- Witness for C10: updating the demo document with a body that renames the
crop keeps its `owner` field, and a body naming `owner` replaces it. -/
theorem crop_update_merge_witness :
    (putCrop demoDocDb demoCid [("name", BVal.str "Rice")]).1 =
      (patchCrop demoDocDb demoCid [("name", BVal.str "Rice")]).1 ∧
    findDoc (putCrop demoDocDb demoCid [("name", BVal.str "Rice")]).1 demoCid =
      some (applySet demoDoc [("name", BVal.str "Rice")]) ∧
    getField (applySet demoDoc [("name", BVal.str "Rice")]) "owner" =
      getField demoDoc "owner" ∧
    getField (applySet demoDoc [("owner", BVal.ownerObj "b@x.com" "B")])
        "owner" = some (BVal.ownerObj "b@x.com" "B") :=
  crop_update_merge demoDocDb demoCid [("name", BVal.str "Rice")] demoDoc
    "owner" "b@x.com" "B" (by decide) (by decide) (by decide)

/-- In a `dupReady` state, a validation-passing submission with that email is
answered with the duplicate ConflictError and writes nothing. -/
theorem submitInterest_dup_conflict (db : List Crop) (cropId emailv : String)
    (a : SubmitArgs) (fid : String) (now : Nat)
    (hd : dupReady db cropId emailv)
    (ha : a.userEmail = emailv)
    (hn : (a.userName == "") = false)
    (hq : ¬ (a.quantity.getD 0 < 1))
    (he : (emailv == "") = false) :
    submitInterest db cropId a fid now =
      (db, Except.error duplicateConflict) := by
  obtain ⟨hid, c, hfind, hown, hdup⟩ := hd
  subst ha
  simp [submitInterest, submitDecide, he, hn, hq, hid, hfind, hown, hdup,
    duplicateConflict]

/-- A successful decide phase, once its `$push` lands, leaves the store in a
`dupReady` state for that email, and the pushed interest is the one the route
constructed. -/
theorem submitDecide_ok_dupReady (db : List Crop) (cropId : String)
    (a : SubmitArgs) (fid : String) (now : Nat) (i : Interest)
    (h : submitDecide db cropId a fid now = .ok i) :
    i = mkInterest cropId a fid now ∧
    dupReady (submitWrite db cropId i) cropId a.userEmail := by
  by_cases h1 : (a.userEmail == "" || a.userName == "") = true
  · simp [submitDecide, h1] at h
  · by_cases h2 : a.quantity.getD 0 < 1
    · simp [submitDecide, h1, h2] at h
    · by_cases h3 : isValidObjectId cropId = true
      · cases hfind : findCrop db cropId with
        | none => simp [submitDecide, h1, h2, h3, hfind] at h
        | some crop =>
            by_cases h4 : (crop.owner.map Owner.ownerEmail ==
                some a.userEmail) = true
            · simp [submitDecide, h1, h2, h3, hfind, h4] at h
            · by_cases h5 : ((crop.interests.getD []).any
                  (fun i => i.userEmail == a.userEmail)) = true
              · simp [submitDecide, h1, h2, h3, hfind, h4, h5] at h
              · have hi : i = mkInterest cropId a fid now := by
                  simp [submitDecide, h1, h2, h3, hfind, h4, h5] at h
                  exact h.symm
                subst hi
                have h4f : (crop.owner.map Owner.ownerEmail ==
                    some a.userEmail) = false := by simpa using h4
                refine ⟨rfl, h3,
                  pushInterest crop (mkInterest cropId a fid now), ?_, ?_, ?_⟩
                · have hcomm := findCrop_updateFirstMatch_id db cropId
                    (fun c => pushInterest c (mkInterest cropId a fid now))
                    (fun _ => rfl)
                  rw [submitWrite, hcomm, hfind]
                  rfl
                · simp only [pushInterest]
                  exact h4f
                · simp [pushInterest, mkInterest]
      · simp [submitDecide, h1, h2, h3] at h

/-- In a `dupReady` state, a whole sequence of validation-passing submissions
with that email changes nothing and is answered with ConflictError
throughout. -/
theorem runSubmits_dupReady (db : List Crop) (cropId emailv : String)
    (calls : List SubmitCall)
    (hd : dupReady db cropId emailv)
    (hemail : ∀ c ∈ calls, c.args.userEmail = emailv)
    (hvalid : ∀ c ∈ calls, (c.args.userName == "") = false ∧
      ¬ (c.args.quantity.getD 0 < 1))
    (he : (emailv == "") = false) :
    (runSubmits db cropId calls).1 = db ∧
    (runSubmits db cropId calls).2 =
      calls.map (fun _ => Except.error duplicateConflict) := by
  induction calls with
  | nil => exact ⟨rfl, rfl⟩
  | cons c rest ih =>
      have hstep := submitInterest_dup_conflict db cropId emailv c.args
        c.freshId c.now hd (hemail c (List.mem_cons_self c rest))
        (hvalid c (List.mem_cons_self c rest)).1 (hvalid c (List.mem_cons_self c rest)).2 he
      have ihr := ih (fun x hx => hemail x (List.mem_cons_of_mem c hx))
        (fun x hx => hvalid x (List.mem_cons_of_mem c hx))
      simp [runSubmits, hstep, ihr.1, ihr.2]

theorem countOk_cons_ok (i : Interest) (rs : List (Except ApiError Interest)) :
    countOk (Except.ok i :: rs) = countOk rs + 1 := by
  simp [countOk, isOkResult, List.filter_cons]

theorem countOk_cons_error (e : ApiError)
    (rs : List (Except ApiError Interest)) :
    countOk (Except.error e :: rs) = countOk rs := by
  simp [countOk, isOkResult, List.filter_cons]

theorem countOk_replicate (n : Nat) (e : ApiError) :
    countOk (List.replicate n (Except.error e)) = 0 := by
  induction n with
  | zero => rfl
  | succ n ih => simpa [List.replicate, countOk_cons_error] using ih

theorem afterOk_replicate (n : Nat) :
    afterOkAllConflict
      (List.replicate n (Except.error duplicateConflict)) = true := by
  induction n with
  | zero => rfl
  | succ n ih => simp [List.replicate, afterOkAllConflict, isOkResult, ih]

theorem all_conflict_replicate (n : Nat) :
    ((List.replicate n (Except.error duplicateConflict)).all
      (fun r2 => r2 ==
        (Except.error duplicateConflict : Except ApiError Interest))) =
      true := by
  induction n with
  | zero => rfl
  | succ n ih => simp [List.replicate, ih]

/-- Induction workhorse for the uniqueness claim: over any store holding the
crop, a sequence of validation-passing submissions with one email yields at
most one success, only ConflictError after a success, and appends at most one
(pending) interest. -/
theorem runSubmits_unique_aux (cropId emailv : String)
    (he : (emailv == "") = false) (calls : List SubmitCall) :
    ∀ db : List Crop,
      (∀ c ∈ calls, c.args.userEmail = emailv) →
      (∀ c ∈ calls, (c.args.userName == "") = false ∧
        ¬ (c.args.quantity.getD 0 < 1)) →
      (findCrop db cropId).isSome = true →
      countOk (runSubmits db cropId calls).2 ≤ 1 ∧
      afterOkAllConflict (runSubmits db cropId calls).2 = true ∧
      (interestsOf (runSubmits db cropId calls).1 cropId =
          interestsOf db cropId ∨
        ∃ newI : Interest, newI.userEmail = emailv ∧
          newI.status = "pending" ∧
          interestsOf (runSubmits db cropId calls).1 cropId =
            interestsOf db cropId ++ [newI]) := by
  induction calls with
  | nil =>
      intro db _ _ _
      simp [runSubmits, countOk, afterOkAllConflict]
  | cons c rest ih =>
      intro db hemail hvalid hcrop
      cases hstep : submitDecide db cropId c.args c.freshId c.now with
      | error e =>
          have hsub : submitInterest db cropId c.args c.freshId c.now =
              (db, .error e) := by simp [submitInterest, hstep]
          have ihr := ih db (fun x hx => hemail x (List.mem_cons_of_mem c hx))
            (fun x hx => hvalid x (List.mem_cons_of_mem c hx)) hcrop
          refine ⟨?_, ?_, ?_⟩
          · simpa [runSubmits, hsub, countOk_cons_error] using ihr.1
          · simpa [runSubmits, hsub, afterOkAllConflict, isOkResult]
              using ihr.2.1
          · simpa [runSubmits, hsub] using ihr.2.2
      | ok i =>
          obtain ⟨hieq, hdR⟩ := submitDecide_ok_dupReady db cropId c.args
            c.freshId c.now i hstep
          have hsub : submitInterest db cropId c.args c.freshId c.now =
              (submitWrite db cropId i, .ok i) := by
            simp [submitInterest, hstep]
          have hemc : c.args.userEmail = emailv :=
            hemail c (List.mem_cons_self c rest)
          rw [hemc] at hdR
          have hrun := runSubmits_dupReady (submitWrite db cropId i) cropId
            emailv rest hdR
            (fun x hx => hemail x (List.mem_cons_of_mem c hx))
            (fun x hx => hvalid x (List.mem_cons_of_mem c hx)) he
          obtain ⟨c0, hc0⟩ := Option.isSome_iff_exists.mp hcrop
          have hints : interestsOf (submitWrite db cropId i) cropId =
              interestsOf db cropId ++ [i] :=
            interestsOf_submitWrite db cropId i c0 hc0
          refine ⟨?_, ?_, Or.inr ⟨i, ?_, ?_, ?_⟩⟩
          · simp [runSubmits, hsub, hrun.2, countOk_cons_ok,
              countOk_replicate]
          · simp [runSubmits, hsub, hrun.2, afterOkAllConflict, isOkResult,
              afterOk_replicate, all_conflict_replicate]
          · rw [hieq]
            exact hemc
          · rw [hieq]
            rfl
          · have hfin : (runSubmits (submitWrite db cropId i) cropId rest).1 =
                submitWrite db cropId i := hrun.1
            simp only [runSubmits, hsub]
            rw [hfin]
            exact hints

/-- Claim C2: over an existing Crop, any sequence of submissions with the
same `(cropId, userEmail)` whose bodies pass the route's input validation
(non-empty user info, quantity at least 1) stores at most one Interest: at
most one call succeeds, every call after the success is answered with the
duplicate ConflictError, and across the whole sequence the crop's interests
either stay unchanged or gain exactly the one pending Interest for that
email. -/
theorem submitInterest_unique_per_email
    (db : List Crop) (cropId emailv : String) (calls : List SubmitCall)
    (hemail : ∀ c ∈ calls, c.args.userEmail = emailv)
    (hvalid : ∀ c ∈ calls, (c.args.userName == "") = false ∧
      ¬ (c.args.quantity.getD 0 < 1))
    (he : (emailv == "") = false)
    (hcrop : (findCrop db cropId).isSome = true) :
    countOk (runSubmits db cropId calls).2 ≤ 1 ∧
    afterOkAllConflict (runSubmits db cropId calls).2 = true ∧
    (interestsOf (runSubmits db cropId calls).1 cropId =
        interestsOf db cropId ∨
      ∃ newI : Interest, newI.userEmail = emailv ∧ newI.status = "pending" ∧
        interestsOf (runSubmits db cropId calls).1 cropId =
          interestsOf db cropId ++ [newI]) :=
  runSubmits_unique_aux cropId emailv he calls db hemail hvalid hcrop

/-- Witness for C2: three sequential identical-email submissions on the demo
crop — one success, then ConflictError twice, one pending interest stored. -/
theorem submitInterest_unique_per_email_witness :
    countOk (runSubmits demoDb demoCid demoCalls).2 ≤ 1 ∧
    afterOkAllConflict (runSubmits demoDb demoCid demoCalls).2 = true ∧
    (interestsOf (runSubmits demoDb demoCid demoCalls).1 demoCid =
        interestsOf demoDb demoCid ∨
      ∃ newI : Interest, newI.userEmail = "b@x.com" ∧
        newI.status = "pending" ∧
        interestsOf (runSubmits demoDb demoCid demoCalls).1 demoCid =
          interestsOf demoDb demoCid ++ [newI]) :=
  submitInterest_unique_per_email demoDb demoCid "b@x.com" demoCalls
    (by decide) (by decide) (by decide) (by decide)
